import Mathlib

/-
  Verification development for the commits-or-clout repository.

  The repository is a scheduled cloud function (src/lambda_function/src/)
  that fetches commit and follower counters from third-party APIs, merges
  them into a JSON time series stored in an object-storage bucket, and
  renders an HTML dashboard.

  Modelling conventions used throughout this file:
  * Python integers are modelled as Int, Python strings as String
    (or List Char where character-level slicing matters).
  * Python float arithmetic on ratio values is modelled exactly over Rat;
    the round builtin (round-half-to-even on ints) is modelled by pyRound.
  * A value that may be Python None is modelled as an Option.
  * Daily entries of the historical dataset are modelled as records in
    which every key is present (this is what the code itself always
    writes), so dict.get on an entry returns the stored value, possibly
    None; the .get defaults in the source are only taken for absent keys
    and are therefore never exercised on such entries.
  * Fallible HTTP fetches are modelled as Option-valued inputs.
-/

/-- A daily entry of the historical dataset, as written by
    update_historical_data (lambda_handler.py) and
    generate_historical_data (generate_historical_data.py).
    Numeric fields hold none when the stored JSON value is null.
    The ratio field is called ratioVal here. -/
structure Entry where
  date : String
  github_commits : Option Int
  twitter_followers : Option Int
  youtube_subscribers : Option Int
  bluesky_followers : Option Int
  total_followers : Option Int
  ratioVal : Option Rat
  last_updated : String
deriving DecidableEq, Repr

/-- Python round to the nearest integer, halves to even, on exact
    rationals (models the round builtin applied to the ratio value). -/
def pyRound (q : Rat) : Int :=
  let f : Int := ⌊q⌋
  let r : Rat := q - (f : Rat)
  if r < 1/2 then f
  else if (1/2 : Rat) < r then f + 1
  else if f % 2 = 0 then f else f + 1

/-- Fallback step of update_historical_data (lambda_handler.py lines
    376-391): when a fetched value is None and a most recent entry
    exists, the corresponding field of that entry is used instead. -/
def resolveField (mostRecent : Option Entry) (cur : Option Int)
    (fld : Entry → Option Int) : Option Int :=
  match mostRecent with
  | some prev => if cur.isNone then fld prev else cur
  | none => cur

/-- The in-place update of the first entry whose date matches
    (lambda_handler.py lines 401-417: the for loop breaks at the first
    match and that entry is mutated). Returns none when no entry
    matches. -/
def updateFirst (f : Entry → Entry) (d : String) : List Entry → Option (List Entry)
  | [] => none
  | e :: rest =>
    if e.date == d then some (f e :: rest)
    else (updateFirst f d rest).map (fun l => e :: l)

/-- The field assignments of lambda_handler.py lines 411-417: the
    existing entry for today keeps its date and receives the freshly
    computed values. -/
def updatedEntryFields (c2 f2 y2 b2 : Option Int) (total : Int)
    (newRatio : Rat) (ts : String) (e : Entry) : Entry :=
  { e with github_commits := c2, twitter_followers := f2,
           youtube_subscribers := y2, bluesky_followers := b2,
           total_followers := some total, ratioVal := some newRatio,
           last_updated := ts }

/-- The new entry appended by lambda_handler.py lines 420-429. -/
def newEntry (d : String) (c2 f2 y2 b2 : Option Int) (total : Int)
    (newRatio : Rat) (ts : String) : Entry :=
  { date := d, github_commits := c2, twitter_followers := f2,
    youtube_subscribers := y2, bluesky_followers := b2,
    total_followers := some total, ratioVal := some newRatio,
    last_updated := ts }

/-- update_historical_data (lambda_handler.py lines 360-431).
    historicalData is the "data" list of the stored JSON object;
    commitCount, followerCount, youtubeSubscribers, blueskyFollowers are
    the fetched values (none on fetch failure); ratioArg is the unused
    ratio parameter (always overwritten at line 398); currentDate and
    lastUpdatedStamp stand for the clock reads.
    Returns none when the Python code would raise a TypeError, namely
    when the division at line 398 is applied to a None commit count. -/
def updateHistoricalData (historicalData : List Entry)
    (commitCount followerCount : Option Int) (_ratioArg : Option Rat)
    (youtubeSubscribers blueskyFollowers : Option Int)
    (currentDate lastUpdatedStamp : String) : Option (List Entry) :=
  let mostRecent := historicalData.getLast?
  let c2 := resolveField mostRecent commitCount (fun e => e.github_commits)
  let f2 := resolveField mostRecent followerCount (fun e => e.twitter_followers)
  let y2 := resolveField mostRecent youtubeSubscribers (fun e => e.youtube_subscribers)
  let b2 := resolveField mostRecent blueskyFollowers (fun e => e.bluesky_followers)
  -- line 394: total_followers = (follower_count or 0) + (youtube_subscribers or 0) + (bluesky_followers or 0)
  let total : Int := f2.getD 0 + y2.getD 0 + b2.getD 0
  -- line 398: ratio = round((commit_count / total_followers if total_followers > 0 else 1) * 10) / 10
  match (if 0 < total then c2.map (fun cc : Int => (cc : Rat) / (total : Rat)) else some 1) with
  | none => none
  | some v =>
    let newRatio : Rat := ((pyRound (v * 10) : Int) : Rat) / 10
    match updateFirst (updatedEntryFields c2 f2 y2 b2 total newRatio lastUpdatedStamp)
        currentDate historicalData with
    | some l => some l
    | none => some (historicalData ++
        [newEntry currentDate c2 f2 y2 b2 total newRatio lastUpdatedStamp])

example :
    updateHistoricalData [] (some 0) (some 0) none (some 0) (some 0) "2025-06-01" "t"
      = some [{ date := "2025-06-01", github_commits := some 0,
                twitter_followers := some 0, youtube_subscribers := some 0,
                bluesky_followers := some 0, total_followers := some 0,
                ratioVal := some 1, last_updated := "t" }] := by
  norm_num [updateHistoricalData, resolveField, updateFirst, pyRound, newEntry]

/-- updateFirst returns none exactly when no entry of the list has the
    requested date. -/
lemma updateFirst_eq_none (f : Entry → Entry) (d : String) :
    ∀ l : List Entry, updateFirst f d l = none ↔ ∀ e ∈ l, ¬ e.date = d := by
  intro l
  induction l with
  | nil => simp [updateFirst]
  | cons e rest ih =>
    by_cases hed : e.date = d
    · constructor
      · intro h
        simp [updateFirst, hed] at h
      · intro h
        exact absurd hed (h e (by simp))
    · have hb : (e.date == d) = false := by simpa using hed
      constructor
      · intro h x hx
        simp only [updateFirst, hb, Bool.false_eq_true, if_false,
          Option.map_eq_none'] at h
        rcases List.mem_cons.mp hx with rfl | hx2
        · exact hed
        · exact (ih.mp h) x hx2
      · intro h
        simp only [updateFirst, hb, Bool.false_eq_true, if_false,
          Option.map_eq_none']
        exact ih.mpr (fun x hx => h x (by simp [hx]))

/-- When updateFirst succeeds and the update function preserves dates,
    the list of dates is unchanged. -/
lemma updateFirst_map_date (f : Entry → Entry) (d : String)
    (hf : ∀ e, (f e).date = e.date) :
    ∀ (l r : List Entry), updateFirst f d l = some r →
      r.map Entry.date = l.map Entry.date := by
  intro l
  induction l with
  | nil => intro r h; simp [updateFirst] at h
  | cons e rest ih =>
    intro r h
    by_cases hed : e.date == d
    · simp only [updateFirst, hed, if_pos, Option.some.injEq] at h
      subst h
      simp [hf]
    · simp only [updateFirst, hed, Bool.false_eq_true, if_false,
        Option.map_eq_some'] at h
      obtain ⟨r0, hr0, rfl⟩ := h
      simp [ih r0 hr0]

/-- When updateFirst succeeds and the update function preserves dates,
    searching the result for the requested date finds the image of the
    first matching entry of the input. -/
lemma updateFirst_find (f : Entry → Entry) (d : String)
    (hf : ∀ e, (f e).date = e.date) :
    ∀ (l r : List Entry), updateFirst f d l = some r →
      ∃ e0, e0 ∈ l ∧ e0.date = d ∧
        r.find? (fun x => x.date == d) = some (f e0) := by
  intro l
  induction l with
  | nil => intro r h; simp [updateFirst] at h
  | cons e rest ih =>
    intro r h
    by_cases hed : e.date == d
    · simp only [updateFirst, hed, if_pos, Option.some.injEq] at h
      subst h
      refine ⟨e, by simp, by simpa using hed, ?_⟩
      simp [List.find?, hf, hed]
    · simp only [updateFirst, hed, Bool.false_eq_true, if_false,
        Option.map_eq_some'] at h
      obtain ⟨r0, hr0, rfl⟩ := h
      obtain ⟨e0, he0l, he0d, hfind⟩ := ih r0 hr0
      exact ⟨e0, by simp [he0l], he0d, by simp [List.find?, hed, hfind]⟩

/-- find? skips a prefix on which it fails. -/
lemma find?_append_of_none {α : Type} (p : α → Bool) (l1 l2 : List α)
    (h : l1.find? p = none) : (l1 ++ l2).find? p = l2.find? p := by
  induction l1 with
  | nil => simp
  | cons a rest ih =>
    rw [List.find?_cons] at h
    rcases hpa : p a with hfalse | htrue
    · rw [hpa] at h
      simp only [List.cons_append, List.find?_cons, hpa]
      exact ih h
    · rw [hpa] at h
      simp at h

/-- The possible values of the recalculated ratio from
    lambda_handler.py line 398: the rounded quotient when the total is
    positive, and 1 otherwise (the conditional expression replaces the
    whole quotient by 1, not just the denominator). -/
lemma newRatio_cases (c2 : Option Int) (total : Int) (v : Rat)
    (heq : (if 0 < total then c2.map (fun cc : Int => (cc : Rat) / (total : Rat))
        else some 1) = some v) :
    (0 < total → ∃ cc : Int, c2 = some cc ∧
      ((pyRound (v * 10) : Int) : Rat) / 10
        = ((pyRound (((cc : Rat) / (total : Rat)) * 10) : Int) : Rat) / 10)
    ∧ (¬ 0 < total → ((pyRound (v * 10) : Int) : Rat) / 10 = 1) := by
  by_cases htot : 0 < total
  · rw [if_pos htot] at heq
    obtain ⟨cc, hcc, hv⟩ := Option.map_eq_some'.mp heq
    exact ⟨fun _ => ⟨cc, hcc, by rw [hv]⟩, fun hcon => absurd htot hcon⟩
  · rw [if_neg htot] at heq
    have hv : v = 1 := by simpa using heq.symm
    refine ⟨fun hcon => absurd hcon htot, fun _ => ?_⟩
    rw [hv]
    norm_num [pyRound]

/-- Characterisation of the entry update_historical_data writes for the
    current date: it is the entry that a search for the current date in
    the returned dataset finds, its stored fields are the
    fallback-resolved fetch values, its total is the None-as-0 sum of
    its own social components, and its ratio is the quotient rounded to
    one decimal when the total is positive and 1 otherwise. -/
lemma updateHistoricalData_written_entry
    (hd : List Entry) (c f : Option Int) (rArg : Option Rat) (y b : Option Int)
    (d ts : String) (l : List Entry)
    (h : updateHistoricalData hd c f rArg y b d ts = some l) :
    ∃ e, l.find? (fun x => x.date == d) = some e ∧ e.date = d
      ∧ e.github_commits = resolveField hd.getLast? c (fun x => x.github_commits)
      ∧ e.twitter_followers = resolveField hd.getLast? f (fun x => x.twitter_followers)
      ∧ e.youtube_subscribers = resolveField hd.getLast? y (fun x => x.youtube_subscribers)
      ∧ e.bluesky_followers = resolveField hd.getLast? b (fun x => x.bluesky_followers)
      ∧ e.total_followers = some (e.twitter_followers.getD 0
          + e.youtube_subscribers.getD 0 + e.bluesky_followers.getD 0)
      ∧ e.last_updated = ts
      ∧ (∀ t : Int, e.total_followers = some t →
          (0 < t → ∃ cc : Int, e.github_commits = some cc ∧
            e.ratioVal = some (((pyRound (((cc : Rat) / (t : Rat)) * 10) : Int) : Rat) / 10))
          ∧ (¬ 0 < t → e.ratioVal = some 1)) := by
  unfold updateHistoricalData at h
  set mr := hd.getLast? with hmr
  set c2 := resolveField mr c (fun x => x.github_commits) with hc2
  set f2 := resolveField mr f (fun x => x.twitter_followers) with hf2
  set y2 := resolveField mr y (fun x => x.youtube_subscribers) with hy2
  set b2 := resolveField mr b (fun x => x.bluesky_followers) with hb2
  set total : Int := f2.getD 0 + y2.getD 0 + b2.getD 0 with htotal
  simp only at h
  split at h
  · exact absurd h (by simp)
  · rename_i v heq
    have hrc := newRatio_cases c2 total v heq
    split at h
    · rename_i l0 hup
      obtain rfl : l0 = l := by simpa using h
      obtain ⟨e0, _, he0date, hfind⟩ :=
        updateFirst_find
          (updatedEntryFields c2 f2 y2 b2 total
            (((pyRound (v * 10) : Int) : Rat) / 10) ts)
          d (fun _ => rfl) hd _ hup
      refine ⟨updatedEntryFields c2 f2 y2 b2 total
          (((pyRound (v * 10) : Int) : Rat) / 10) ts e0,
        hfind, by simp [updatedEntryFields, he0date], by simp [updatedEntryFields],
        by simp [updatedEntryFields], by simp [updatedEntryFields],
        by simp [updatedEntryFields], by simp [updatedEntryFields, htotal],
        by simp [updatedEntryFields], ?_⟩
      intro t ht
      have htt : total = t := by
        simpa [updatedEntryFields] using ht
      subst htt
      constructor
      · intro h0
        obtain ⟨cc, hcc, hval⟩ := hrc.1 h0
        exact ⟨cc, by simp [updatedEntryFields, hcc],
          by simp [updatedEntryFields, hval]⟩
      · intro h0
        simp [updatedEntryFields, hrc.2 h0]
    · rename_i hup
      obtain rfl : hd ++ [newEntry d c2 f2 y2 b2 total
          (((pyRound (v * 10) : Int) : Rat) / 10) ts] = l := by simpa using h
      have hnone : hd.find? (fun x => x.date == d) = none := by
        rw [List.find?_eq_none]
        intro x hx
        simpa using (updateFirst_eq_none _ d hd).mp hup x hx
      have hfind : (hd ++ [newEntry d c2 f2 y2 b2 total
          (((pyRound (v * 10) : Int) : Rat) / 10) ts]).find?
            (fun x => x.date == d)
          = some (newEntry d c2 f2 y2 b2 total
            (((pyRound (v * 10) : Int) : Rat) / 10) ts) := by
        rw [find?_append_of_none _ _ _ hnone]
        simp [List.find?, newEntry]
      refine ⟨newEntry d c2 f2 y2 b2 total
          (((pyRound (v * 10) : Int) : Rat) / 10) ts,
        hfind, by simp [newEntry], by simp [newEntry], by simp [newEntry],
        by simp [newEntry], by simp [newEntry], by simp [newEntry, htotal],
        by simp [newEntry], ?_⟩
      intro t ht
      have htt : total = t := by
        simpa [newEntry] using ht
      subst htt
      constructor
      · intro h0
        obtain ⟨cc, hcc, hval⟩ := hrc.1 h0
        exact ⟨cc, by simp [newEntry, hcc], by simp [newEntry, hval]⟩
      · intro h0
        simp [newEntry, hrc.2 h0]

/-- generate_historical_data.py lines 279-282: the dictionary of
    existing entries keyed by date; a later duplicate date overwrites an
    earlier one, so lookup returns the last matching entry. -/
def buildExisting (old : List Entry) (d : String) : Option Entry :=
  old.reverse.find? (fun e => e.date == d)

/-- The entry built by generate_historical_data.py lines 315-329 from a
    date, the cumulative commit count and the three follower counts:
    total_followers is the sum floored at 1 (line 316) and the ratio is
    the rounded quotient by that floored total (line 317). -/
def mkGenEntry (dateStr : String) (cum tw yt bs : Int) (lastUpd : String) : Entry :=
  let total : Int := max (tw + yt + bs) 1
  { date := dateStr, github_commits := some cum, twitter_followers := some tw,
    youtube_subscribers := some yt, bluesky_followers := some bs,
    total_followers := some total,
    ratioVal := some (((pyRound (((cum : Rat) / (total : Rat)) * 10) : Int) : Rat) / 10),
    last_updated := lastUpd }

/-- One iteration of the loop of generate_historical_data.py lines
    291-331: follower counts come from the existing entry for the date
    when there is one (line 302-304) and from the current fetched values
    otherwise (lines 310-312). A null follower count stored in an
    existing entry would make the max at line 316 raise a TypeError,
    modelled as none. -/
def generateEntry (dateStr : String) (cum : Int) (existing : Option Entry)
    (curTw curYt curBs : Int) (lastUpd : String) : Option Entry :=
  match existing with
  | some e =>
    match e.twitter_followers, e.youtube_subscribers, e.bluesky_followers with
    | some tw, some yt, some bs => some (mkGenEntry dateStr cum tw yt bs lastUpd)
    | _, _, _ => none
  | none => some (mkGenEntry dateStr cum curTw curYt curBs lastUpd)

/-- The date loop of generate_historical_data.py lines 284-331, carrying
    the cumulative commit count. -/
def generateEntriesAux (lookup : String → Option Entry)
    (curTw curYt curBs : Int) (lastUpd : String) :
    List (String × Int) → Int → Option (List Entry)
  | [], _ => some []
  | (d, n) :: rest, cum =>
    let cum2 := cum + n
    match generateEntry d cum2 (lookup d) curTw curYt curBs lastUpd with
    | none => none
    | some e =>
      (generateEntriesAux lookup curTw curYt curBs lastUpd rest cum2).map
        (fun l => e :: l)

/-- generate_historical_data (generate_historical_data.py lines
    234-339), restricted to its data transformation: daily is the
    sorted association list of per-date commit counts (the sorted keys
    of daily_commits with their counts), old the previously stored data
    list, curTw curYt curBs the currently fetched follower counts, and
    lastUpd the clock read. Returns the new "data" list, or none when
    the loop would raise. -/
def generateHistoricalData (daily : List (String × Int)) (old : List Entry)
    (curTw curYt curBs : Int) (lastUpd : String) : Option (List Entry) :=
  generateEntriesAux (buildExisting old) curTw curYt curBs lastUpd daily 0

/-- Every entry produced by generateEntry has the mkGenEntry shape. -/
lemma generateEntry_shape (dateStr : String) (cum : Int) (ex : Option Entry)
    (curTw curYt curBs : Int) (lastUpd : String) (e : Entry)
    (h : generateEntry dateStr cum ex curTw curYt curBs lastUpd = some e) :
    ∃ tw yt bs, e = mkGenEntry dateStr cum tw yt bs lastUpd := by
  cases ex with
  | none =>
    exact ⟨curTw, curYt, curBs, by simpa [generateEntry] using h.symm⟩
  | some e0 =>
    cases htw : e0.twitter_followers with
    | none => simp [generateEntry, htw] at h
    | some tw =>
      cases hyt : e0.youtube_subscribers with
      | none => simp [generateEntry, htw, hyt] at h
      | some yt =>
        cases hbs : e0.bluesky_followers with
        | none => simp [generateEntry, htw, hyt, hbs] at h
        | some bs =>
          refine ⟨tw, yt, bs, ?_⟩
          simp only [generateEntry, htw, hyt, hbs, Option.some.injEq] at h
          exact h.symm

/-- Every entry of a successfully generated data list has the
    mkGenEntry shape. -/
lemma generateEntriesAux_shape (lookup : String → Option Entry)
    (curTw curYt curBs : Int) (lastUpd : String) :
    ∀ (daily : List (String × Int)) (cum : Int) (l : List Entry),
      generateEntriesAux lookup curTw curYt curBs lastUpd daily cum = some l →
      ∀ e ∈ l, ∃ d0 c0 tw yt bs, e = mkGenEntry d0 c0 tw yt bs lastUpd := by
  intro daily
  induction daily with
  | nil =>
    intro cum l h e he
    simp only [generateEntriesAux, Option.some.injEq] at h
    subst h
    simp at he
  | cons p rest ih =>
    intro cum l h e he
    obtain ⟨d, n⟩ := p
    simp only [generateEntriesAux] at h
    cases hg : generateEntry d (cum + n) (lookup d) curTw curYt curBs lastUpd with
    | none => rw [hg] at h; simp at h
    | some e1 =>
      rw [hg] at h
      simp only [Option.map_eq_some'] at h
      obtain ⟨l0, hl0, rfl⟩ := h
      rcases List.mem_cons.mp he with rfl | he2
      · obtain ⟨tw, yt, bs, hsh⟩ := generateEntry_shape _ _ _ _ _ _ _ _ hg
        exact ⟨d, cum + n, tw, yt, bs, hsh⟩
      · exact ih (cum + n) l0 hl0 e he2

/-- The dataset returned by update_historical_data either keeps the
    date sequence unchanged (in-place update of an existing entry for
    the current date) or appends one entry for the current date, the
    latter only when no entry for that date existed. -/
lemma updateHistoricalData_result
    (hd : List Entry) (c f : Option Int) (rArg : Option Rat) (y b : Option Int)
    (d ts : String) (l : List Entry)
    (h : updateHistoricalData hd c f rArg y b d ts = some l) :
    (l.map Entry.date = hd.map Entry.date)
    ∨ (∃ ne : Entry, l = hd ++ [ne] ∧ ne.date = d ∧ ∀ e ∈ hd, ¬ e.date = d) := by
  unfold updateHistoricalData at h
  simp only at h
  split at h
  · exact absurd h (by simp)
  · rename_i v heq
    split at h
    · rename_i l0 hup
      obtain rfl : l0 = l := by simpa using h
      refine Or.inl (updateFirst_map_date _ d ?_ hd _ hup)
      intro e
      rfl
    · rename_i hup
      exact Or.inr ⟨_, (by simpa using h.symm), rfl,
        (updateFirst_eq_none _ d hd).mp hup⟩

/-- update_historical_data does not raise when the commit count after
    fallback resolution is an integer. -/
lemma updateHistoricalData_isSome
    (hd : List Entry) (c f : Option Int) (rArg : Option Rat) (y b : Option Int)
    (d ts : String)
    (hc : (resolveField hd.getLast? c (fun x => x.github_commits)).isSome) :
    (updateHistoricalData hd c f rArg y b d ts).isSome := by
  unfold updateHistoricalData
  simp only
  split
  · rename_i heq
    exfalso
    by_cases htot : 0 <
        (resolveField hd.getLast? f (fun x => x.twitter_followers)).getD 0
        + (resolveField hd.getLast? y (fun x => x.youtube_subscribers)).getD 0
        + (resolveField hd.getLast? b (fun x => x.bluesky_followers)).getD 0
    · rw [if_pos htot, Option.map_eq_none'] at heq
      rw [heq] at hc
      simp at hc
    · rw [if_neg htot] at heq
      simp at heq
  · rename_i v heq
    split <;> simp

/-- C1 counterexample: with an empty dataset and all fetched counters 0,
    the persisted entry has github_commits 0 and total_followers 0, and
    its stored ratio is 1; the claimed formula
    round((github_commits / max(total_followers, 1)) * 10) / 10 yields 0
    on those fields, so the claim fails as stated: the conditional at
    lambda_handler.py line 398 replaces the whole quotient by 1 when the
    total is 0, it does not floor the denominator. -/
theorem c1_ratio_floor_counterexample :
    (updateHistoricalData [] (some 0) (some 0) none (some 0) (some 0)
        "2025-06-01" "t").bind
      (fun l => l.find? (fun x => x.date == "2025-06-01"))
      = some { date := "2025-06-01", github_commits := some 0,
               twitter_followers := some 0, youtube_subscribers := some 0,
               bluesky_followers := some 0, total_followers := some 0,
               ratioVal := some 1, last_updated := "t" }
    ∧ ((pyRound ((((0 : Int) : Rat) / ((max (0 : Int) 1 : Int) : Rat)) * 10) : Int) : Rat) / 10 = 0
    ∧ (1 : Rat) ≠ 0 := by
  refine ⟨?_, by norm_num [pyRound], by norm_num⟩
  norm_num [updateHistoricalData, resolveField, updateFirst, newEntry,
    pyRound, List.find?]

/-- C1 (amended): in the regeneration path every persisted entry's
    ratio equals round((github_commits / max(total_followers, 1)) * 10) / 10
    as claimed; in the lambda update path the persisted entry's ratio
    equals that formula whenever its total_followers is positive, but
    equals 1.0 when its total_followers is not positive (the conditional
    replaces the whole quotient by 1, not just the denominator). -/
theorem c1_ratio_amended :
    (∀ (hd : List Entry) (c f : Option Int) (rArg : Option Rat)
        (y b : Option Int) (d ts : String) (l : List Entry) (e : Entry) (t : Int),
      updateHistoricalData hd c f rArg y b d ts = some l →
      l.find? (fun x => x.date == d) = some e →
      e.total_followers = some t →
      (0 < t → ∃ cc : Int, e.github_commits = some cc ∧
        e.ratioVal = some (((pyRound (((cc : Rat) / ((max t 1 : Int) : Rat)) * 10) : Int) : Rat) / 10))
      ∧ (¬ 0 < t → e.ratioVal = some 1))
    ∧ (∀ (daily : List (String × Int)) (old : List Entry) (tw yt bs : Int)
        (lu : String) (l : List Entry) (e : Entry) (cc t : Int),
      generateHistoricalData daily old tw yt bs lu = some l →
      e ∈ l → e.github_commits = some cc → e.total_followers = some t →
      e.ratioVal = some (((pyRound (((cc : Rat) / ((max t 1 : Int) : Rat)) * 10) : Int) : Rat) / 10)) := by
  constructor
  · intro hd c f rArg y b d ts l e t hupd hfind htot
    obtain ⟨e', hfind', _, _, _, _, _, _, _, hr⟩ :=
      updateHistoricalData_written_entry hd c f rArg y b d ts l hupd
    rw [hfind] at hfind'
    obtain rfl := Option.some.inj hfind'
    rcases hr t htot with ⟨hpos, hneg⟩
    constructor
    · intro h0
      obtain ⟨cc, hcc, hrat⟩ := hpos h0
      have hmax : (max t 1 : Int) = t := max_eq_left (by omega)
      rw [hmax]
      exact ⟨cc, hcc, hrat⟩
    · exact hneg
  · intro daily old tw yt bs lu l e cc t hgen hmem hcc htot
    obtain ⟨d0, c0, tw0, yt0, bs0, rfl⟩ :=
      generateEntriesAux_shape (buildExisting old) tw yt bs lu daily 0 l hgen e hmem
    simp only [mkGenEntry, Option.some.injEq] at hcc htot
    obtain rfl := hcc
    obtain rfl := htot
    have hmax : (max (max (tw0 + yt0 + bs0) 1) 1 : Int) = max (tw0 + yt0 + bs0) 1 :=
      max_eq_left (le_max_right _ 1)
    simp only [mkGenEntry, hmax]

/-- Witness for the amended C1 at concrete inputs: the regeneration
    path with one day of 3 commits and one follower, and the lambda
    path with all counters 0 (total 0, ratio 1). -/
theorem c1_ratio_amended_witness :
    (mkGenEntry "2025-01-01" 3 1 0 0 "t").ratioVal
      = some (((pyRound ((((3 : Int) : Rat) / ((max (1 : Int) 1 : Int) : Rat)) * 10) : Int) : Rat) / 10)
    ∧ (newEntry "2025-06-01" (some 0) (some 0) (some 0) (some 0) 0 1 "t").ratioVal = some 1 := by
  constructor
  · exact c1_ratio_amended.2 [("2025-01-01", 3)] [] 1 0 0 "t"
      [mkGenEntry "2025-01-01" 3 1 0 0 "t"] (mkGenEntry "2025-01-01" 3 1 0 0 "t") 3 1
      (by norm_num [generateHistoricalData, generateEntriesAux, generateEntry,
        buildExisting])
      (by simp)
      (by simp [mkGenEntry])
      (by norm_num [mkGenEntry])
  · exact (c1_ratio_amended.1 [] (some 0) (some 0) none (some 0) (some 0)
      "2025-06-01" "t"
      [newEntry "2025-06-01" (some 0) (some 0) (some 0) (some 0) 0 1 "t"]
      (newEntry "2025-06-01" (some 0) (some 0) (some 0) (some 0) 0 1 "t") 0
      (by norm_num [updateHistoricalData, resolveField, updateFirst, pyRound,
        newEntry])
      (by simp [List.find?, newEntry])
      (by simp [newEntry])).2 (by norm_num)

/-- C2 counterexample: in the regeneration path with all follower
    counts 0, the persisted entry stores total_followers 1 (the sum
    floored at 1 by generate_historical_data.py line 316) while the sum
    of its three stored components is 0, so total_followers does not
    equal the component sum. -/
theorem c2_total_counterexample :
    generateHistoricalData [("2025-01-01", 0)] [] 0 0 0 "t"
      = some [mkGenEntry "2025-01-01" 0 0 0 0 "t"]
    ∧ (mkGenEntry "2025-01-01" 0 0 0 0 "t").total_followers = some 1
    ∧ (mkGenEntry "2025-01-01" 0 0 0 0 "t").twitter_followers = some 0
    ∧ (mkGenEntry "2025-01-01" 0 0 0 0 "t").youtube_subscribers = some 0
    ∧ (mkGenEntry "2025-01-01" 0 0 0 0 "t").bluesky_followers = some 0
    ∧ (1 : Int) ≠ 0 + 0 + 0 := by
  refine ⟨?_, by norm_num [mkGenEntry], by simp [mkGenEntry],
    by simp [mkGenEntry], by simp [mkGenEntry], by norm_num⟩
  norm_num [generateHistoricalData, generateEntriesAux, generateEntry,
    buildExisting]

/-- C2 (amended): in the lambda update path the persisted entry's
    total_followers equals the sum of its three stored social
    components with null taken as 0; in the regeneration path the
    components are always integers and total_followers equals their sum
    floored at 1. -/
theorem c2_total_amended :
    (∀ (hd : List Entry) (c f : Option Int) (rArg : Option Rat)
        (y b : Option Int) (d ts : String) (l : List Entry) (e : Entry),
      updateHistoricalData hd c f rArg y b d ts = some l →
      l.find? (fun x => x.date == d) = some e →
      e.total_followers = some (e.twitter_followers.getD 0
        + e.youtube_subscribers.getD 0 + e.bluesky_followers.getD 0))
    ∧ (∀ (daily : List (String × Int)) (old : List Entry) (tw yt bs : Int)
        (lu : String) (l : List Entry) (e : Entry),
      generateHistoricalData daily old tw yt bs lu = some l → e ∈ l →
      e.twitter_followers.isSome ∧ e.youtube_subscribers.isSome
      ∧ e.bluesky_followers.isSome
      ∧ e.total_followers = some (max (e.twitter_followers.getD 0
          + e.youtube_subscribers.getD 0 + e.bluesky_followers.getD 0) 1)) := by
  constructor
  · intro hd c f rArg y b d ts l e hupd hfind
    obtain ⟨e', hfind', _, _, _, _, _, htotal, _, _⟩ :=
      updateHistoricalData_written_entry hd c f rArg y b d ts l hupd
    rw [hfind] at hfind'
    obtain rfl := Option.some.inj hfind'
    exact htotal
  · intro daily old tw yt bs lu l e hgen hmem
    obtain ⟨d0, c0, tw0, yt0, bs0, rfl⟩ :=
      generateEntriesAux_shape (buildExisting old) tw yt bs lu daily 0 l hgen e hmem
    simp [mkGenEntry]

/-- Witness for the amended C2 at concrete inputs: a lambda-path entry
    with counters 2, 1 and 1, and a regeneration-path entry with all
    counters 0 (stored total 1). -/
theorem c2_total_amended_witness :
    (newEntry "2025-06-01" (some 5) (some 2) (some 1) (some 1) 4 (6/5) "t").total_followers
      = some ((newEntry "2025-06-01" (some 5) (some 2) (some 1) (some 1) 4 (6/5) "t").twitter_followers.getD 0
        + (newEntry "2025-06-01" (some 5) (some 2) (some 1) (some 1) 4 (6/5) "t").youtube_subscribers.getD 0
        + (newEntry "2025-06-01" (some 5) (some 2) (some 1) (some 1) 4 (6/5) "t").bluesky_followers.getD 0)
    ∧ (mkGenEntry "2025-01-01" 0 0 0 0 "t").total_followers
      = some (max ((mkGenEntry "2025-01-01" 0 0 0 0 "t").twitter_followers.getD 0
          + (mkGenEntry "2025-01-01" 0 0 0 0 "t").youtube_subscribers.getD 0
          + (mkGenEntry "2025-01-01" 0 0 0 0 "t").bluesky_followers.getD 0) 1) := by
  constructor
  · exact c2_total_amended.1 [] (some 5) (some 2) none (some 1) (some 1)
      "2025-06-01" "t"
      [newEntry "2025-06-01" (some 5) (some 2) (some 1) (some 1) 4 (6/5) "t"]
      (newEntry "2025-06-01" (some 5) (some 2) (some 1) (some 1) 4 (6/5) "t")
      (by norm_num [updateHistoricalData, resolveField, updateFirst, pyRound,
        newEntry])
      (by simp [List.find?, newEntry])
  · exact (c2_total_amended.2 [("2025-01-01", 0)] [] 0 0 0 "t"
      [mkGenEntry "2025-01-01" 0 0 0 0 "t"] (mkGenEntry "2025-01-01" 0 0 0 0 "t")
      (by norm_num [generateHistoricalData, generateEntriesAux, generateEntry,
        buildExisting])
      (by simp)).2.2.2

/-- C3 counterexample: with an empty input dataset (no most recent
    entry to fall back to) and every fetched value None, the entry
    written for the current day stores null for github_commits (and for
    all social counters), so the claim fails for the empty dataset. -/
theorem c3_no_null_counterexample :
    (updateHistoricalData [] none none none none none "2025-06-01" "t").bind
      (fun l => l.find? (fun x => x.date == "2025-06-01"))
      = some (newEntry "2025-06-01" none none none none 0 1 "t")
    ∧ (newEntry "2025-06-01" none none none none 0 1 "t").github_commits = none
    ∧ (newEntry "2025-06-01" none none none none 0 1 "t").twitter_followers = none := by
  refine ⟨?_, by simp [newEntry], by simp [newEntry]⟩
  norm_num [updateHistoricalData, resolveField, updateFirst, newEntry,
    pyRound, List.find?]

/-- C3 (amended): for every non-empty input dataset whose most recent
    entry has no null counter field, and every combination of provider
    results (None allowed anywhere), update_historical_data succeeds
    and the entry it writes for the current day contains no null field:
    each None input is replaced by the corresponding value of the most
    recent stored entry. -/
theorem c3_no_null_amended :
    ∀ (hd : List Entry) (c f : Option Int) (rArg : Option Rat)
      (y b : Option Int) (d ts : String),
      hd.getLast?.isSome →
      (∀ le, hd.getLast? = some le →
        le.github_commits.isSome ∧ le.twitter_followers.isSome
        ∧ le.youtube_subscribers.isSome ∧ le.bluesky_followers.isSome) →
      (updateHistoricalData hd c f rArg y b d ts).isSome
      ∧ ∀ l, updateHistoricalData hd c f rArg y b d ts = some l →
          ∀ e, l.find? (fun x => x.date == d) = some e →
            e.github_commits.isSome ∧ e.twitter_followers.isSome
            ∧ e.youtube_subscribers.isSome ∧ e.bluesky_followers.isSome
            ∧ e.total_followers.isSome ∧ e.ratioVal.isSome := by
  intro hd c f rArg y b d ts hne hlast
  obtain ⟨le, hle⟩ := Option.isSome_iff_exists.mp hne
  have hfields := hlast le hle
  have hres : ∀ (cur : Option Int) (fld : Entry → Option Int),
      (fld le).isSome → (resolveField hd.getLast? cur fld).isSome := by
    intro cur fld hf
    rw [hle]
    cases cur with
    | none => simpa [resolveField] using hf
    | some x => simp [resolveField]
  constructor
  · exact updateHistoricalData_isSome hd c f rArg y b d ts
      (hres c _ hfields.1)
  · intro l hupd e hfind
    obtain ⟨e', hfind', _, hgc, htw, hyt, hbs, htotal, _, hr⟩ :=
      updateHistoricalData_written_entry hd c f rArg y b d ts l hupd
    rw [hfind] at hfind'
    obtain rfl := Option.some.inj hfind'
    refine ⟨?_, ?_, ?_, ?_, ?_, ?_⟩
    · rw [hgc]; exact hres c _ hfields.1
    · rw [htw]; exact hres f _ hfields.2.1
    · rw [hyt]; exact hres y _ hfields.2.2.1
    · rw [hbs]; exact hres b _ hfields.2.2.2
    · rw [htotal]; simp
    · rcases hr _ htotal with ⟨hpos, hneg⟩
      by_cases h0 : 0 < (e.twitter_followers.getD 0
          + e.youtube_subscribers.getD 0 + e.bluesky_followers.getD 0)
      · obtain ⟨cc, _, hrat⟩ := hpos h0
        simp [hrat]
      · simp [hneg h0]

/-- A sample stored entry with integer fields, used as the most recent
    entry in concrete instantiations. -/
def samplePrevEntry : Entry :=
  { date := "2025-05-31", github_commits := some 7, twitter_followers := some 1,
    youtube_subscribers := some 2, bluesky_followers := some 3,
    total_followers := some 6, ratioVal := some 1, last_updated := "s" }

/-- Witness for the amended C3: a one-entry dataset with integer fields
    and all five fetches None; the written entry has no null field. -/
theorem c3_no_null_amended_witness :
    (updateHistoricalData [samplePrevEntry] none none none none none
        "2025-06-01" "t").isSome
    ∧ ((newEntry "2025-06-01" (some 7) (some 1) (some 2) (some 3) 6 (6/5) "t").github_commits.isSome
      ∧ (newEntry "2025-06-01" (some 7) (some 1) (some 2) (some 3) 6 (6/5) "t").twitter_followers.isSome
      ∧ (newEntry "2025-06-01" (some 7) (some 1) (some 2) (some 3) 6 (6/5) "t").youtube_subscribers.isSome
      ∧ (newEntry "2025-06-01" (some 7) (some 1) (some 2) (some 3) 6 (6/5) "t").bluesky_followers.isSome
      ∧ (newEntry "2025-06-01" (some 7) (some 1) (some 2) (some 3) 6 (6/5) "t").total_followers.isSome
      ∧ (newEntry "2025-06-01" (some 7) (some 1) (some 2) (some 3) 6 (6/5) "t").ratioVal.isSome) := by
  have h := c3_no_null_amended [samplePrevEntry] none none none none none
    "2025-06-01" "t"
    (by simp [samplePrevEntry])
    (by
      intro le hle
      have hle2 : samplePrevEntry = le := by simpa using hle
      subst hle2
      simp [samplePrevEntry])
  refine ⟨h.1, h.2
    [samplePrevEntry,
      newEntry "2025-06-01" (some 7) (some 1) (some 2) (some 3) 6 (6/5) "t"]
    (by
      have hne : ("2025-05-31" : String) = "2025-06-01" ↔ False := by
        constructor
        · intro hcon; exact absurd hcon (by decide)
        · intro hcon; exact hcon.elim
      norm_num [updateHistoricalData, resolveField, updateFirst, pyRound,
        newEntry, samplePrevEntry, updateFirst, hne])
    (newEntry "2025-06-01" (some 7) (some 1) (some 2) (some 3) 6 (6/5) "t")
    (by
      have hbeq : (("2025-05-31" : String) == "2025-06-01") = false := by decide
      norm_num [List.find?, newEntry, samplePrevEntry, hbeq])⟩

/-- C4: if each date occurs at most once in the input dataset, the
    dataset returned by update_historical_data also contains each date
    at most once: an existing entry for the current date is updated in
    place, and a new entry is appended only when no entry for the
    current date exists. -/
theorem c4_dates_unique :
    ∀ (hd : List Entry) (c f : Option Int) (rArg : Option Rat)
      (y b : Option Int) (d ts : String) (l : List Entry),
      (hd.map Entry.date).Nodup →
      updateHistoricalData hd c f rArg y b d ts = some l →
      (l.map Entry.date).Nodup := by
  intro hd c f rArg y b d ts l hnd hupd
  rcases updateHistoricalData_result hd c f rArg y b d ts l hupd with
    hmap | ⟨ne, rfl, hdate, hnot⟩
  · rw [hmap]; exact hnd
  · rw [List.map_append, List.nodup_append]
    refine ⟨hnd, by simp, ?_⟩
    intro a ha hb
    simp only [List.map_cons, List.map_nil, List.mem_singleton] at hb
    subst hb
    obtain ⟨x, hx, hxd⟩ := List.mem_map.mp ha
    exact hnot x hx (hxd.trans hdate)

/-- Witness for C4: appending today's entry to a one-entry dataset for
    another date keeps the dates unique. -/
theorem c4_dates_unique_witness :
    (([samplePrevEntry,
        newEntry "2025-06-01" (some 8) (some 1) (some 2) (some 3) 6 (13/10) "t"].map
          Entry.date).Nodup) := by
  refine c4_dates_unique [samplePrevEntry] (some 8) (some 1) none (some 2)
    (some 3) "2025-06-01" "t" _ (by simp [samplePrevEntry]) ?_
  have hne : ("2025-05-31" : String) = "2025-06-01" ↔ False := by
    constructor
    · intro hcon; exact absurd hcon (by decide)
    · intro hcon; exact hcon.elim
  norm_num [updateHistoricalData, resolveField, updateFirst, pyRound,
    newEntry, samplePrevEntry, hne]

/-
  Object-storage model for the save and upload steps. A bucket is a map
  from keys to stored object bodies.
-/

/-- The storage bucket: each key holds an object body or nothing. -/
def S3State : Type := String → Option String

/-- put_object. -/
def s3put (s : S3State) (k v : String) : S3State :=
  fun q => if q = k then some v else s q

/-- copy_object: copies the body stored at src to dst (only called
    after a successful head_object, so src exists; copying a missing
    src leaves the state unchanged in the model). -/
def s3copy (s : S3State) (src dst : String) : S3State :=
  match s src with
  | some v => s3put s dst v
  | none => s

/-- Default object keys from lambda_handler.py lines 49-52. -/
def S3_KEY : String := "index.html"

def S3_KEY_BACKUP : String := "index_backup.html"

def S3_HISTORY_KEY : String := "historical_data.json"

def S3_HISTORY_BACKUP_KEY : String := "historical_data_backup.json"

/-- save_historical_data (lambda_handler.py lines 433-468): when the
    main history object exists (head_object succeeds), copy it to the
    backup key, then overwrite the main key with the new body. -/
def saveHistoricalData (s : S3State) (body : String) : S3State :=
  let s1 := if (s S3_HISTORY_KEY).isSome
    then s3copy s S3_HISTORY_KEY S3_HISTORY_BACKUP_KEY
    else s
  s3put s1 S3_HISTORY_KEY body

/-- The HTML upload block of the handler (lambda_handler.py lines
    616-641): when the HTML object exists, copy it to the backup key,
    then overwrite the main HTML key with the rendered content. -/
def uploadDashboardHtml (s : S3State) (html : String) : S3State :=
  let s1 := if (s S3_KEY).isSome
    then s3copy s S3_KEY S3_KEY_BACKUP
    else s
  s3put s1 S3_KEY html

/-- C5: whenever the main history object exists, save_historical_data
    preserves its previous body under the backup key before overwriting
    the main key with the new body, and the handler's HTML upload does
    the same for the HTML object. -/
theorem c5_backup_before_overwrite :
    (∀ (s : S3State) (body prev : String),
      s S3_HISTORY_KEY = some prev →
      saveHistoricalData s body S3_HISTORY_BACKUP_KEY = some prev
      ∧ saveHistoricalData s body S3_HISTORY_KEY = some body)
    ∧ (∀ (s : S3State) (html prev : String),
      s S3_KEY = some prev →
      uploadDashboardHtml s html S3_KEY_BACKUP = some prev
      ∧ uploadDashboardHtml s html S3_KEY = some html) := by
  constructor
  · intro s body prev hprev
    have hkeys : S3_HISTORY_BACKUP_KEY ≠ S3_HISTORY_KEY := by decide
    constructor
    · simp [saveHistoricalData, s3copy, s3put, hprev, hkeys]
    · simp [saveHistoricalData, s3copy, s3put, hprev]
  · intro s html prev hprev
    have hkeys : S3_KEY_BACKUP ≠ S3_KEY := by decide
    constructor
    · simp [uploadDashboardHtml, s3copy, s3put, hprev, hkeys]
    · simp [uploadDashboardHtml, s3copy, s3put, hprev]

/-- Witness for C5 at a concrete bucket holding both objects. -/
theorem c5_backup_before_overwrite_witness :
    (saveHistoricalData
        (fun k => if k = S3_HISTORY_KEY then some "oldjson"
          else if k = S3_KEY then some "oldhtml" else none)
        "newjson" S3_HISTORY_BACKUP_KEY = some "oldjson")
    ∧ (uploadDashboardHtml
        (fun k => if k = S3_HISTORY_KEY then some "oldjson"
          else if k = S3_KEY then some "oldhtml" else none)
        "newhtml" S3_KEY = some "newhtml") := by
  constructor
  · exact (c5_backup_before_overwrite.1
      (fun k => if k = S3_HISTORY_KEY then some "oldjson"
        else if k = S3_KEY then some "oldhtml" else none)
      "newjson" "oldjson" (by simp)).1
  · exact (c5_backup_before_overwrite.2
      (fun k => if k = S3_HISTORY_KEY then some "oldjson"
        else if k = S3_KEY then some "oldhtml" else none)
      "newhtml" "oldhtml" (by
        have hne : (S3_KEY = S3_HISTORY_KEY) ↔ False := by
          constructor
          · intro hcon; exact absurd hcon (by decide)
          · exact False.elim
        simp [hne])).2

/-
  Model of get_commits_since_jan_1 (lambda_handler.py lines 164-286).
  Commits are identified by their SHA (a string). Pagination inputs are
  the sequences of response pages the API would serve.
-/

/-- One API response page: the returned items and the Link header,
    modelled as none when the header is absent and as some b when it is
    present, b recording whether it contains a rel=next cursor. -/
structure Page (α : Type) where
  items : List α
  link : Option Bool

/-- The branch and commit pagination loops (lambda_handler.py lines
    196-217 and 239-263): stop on an empty page before accumulating;
    accumulate; stop when the page is shorter than per_page (100); stop
    when a Link header is present without a rel=next cursor; otherwise
    fetch the next page. -/
def consumePages {α : Type} : List (Page α) → List α
  | [] => []
  | p :: rest =>
    if p.items.isEmpty then []
    else if p.items.length < 100 then p.items
    else match p.link with
      | some hasNext => if hasNext then p.items ++ consumePages rest else p.items
      | none => p.items ++ consumePages rest

/-- A repository as seen by get_commits_since_jan_1: its name is
    irrelevant to the count; defaultBranch is the fallback of line 224;
    branchFetch is the branch listing (none when the request fails, in
    which case the repository is skipped at line 277); commitFetch maps
    a branch name to its commit pages of SHAs (none when the request
    fails, in which case the branch is skipped at line 268). -/
structure Repo where
  defaultBranch : String
  branchFetch : Option (List (Page String))
  commitFetch : String → Option (List (Page String))

/-- The branch names processed for a repository: the paginated branch
    listing, or the default branch when the listing is empty (lines
    222-224), or nothing when the listing request failed. -/
def repoBranches (r : Repo) : Option (List String) :=
  match r.branchFetch with
  | none => none
  | some pages =>
    let bs := consumePages pages
    some (if bs.isEmpty then [r.defaultBranch] else bs)

/-- The commit SHAs consumed for one branch of a repository (lines
    237-268): the paginated commit listing, or nothing on a request
    error. -/
def branchCommits (r : Repo) (branchName : String) : List String :=
  match r.commitFetch branchName with
  | none => []
  | some pages => consumePages pages

/-- get_commits_since_jan_1: every consumed commit SHA is added to one
    set (line 250) and the size of that set is returned (line 279). -/
def getCommitsSinceJan1 (repos : List Repo) : Nat :=
  (repos.foldl (fun acc r =>
      match repoBranches r with
      | none => acc
      | some bs => bs.foldl
          (fun acc2 bn => (branchCommits r bn).foldl
            (fun s sha => insert sha s) acc2) acc)
    (∅ : Finset String)).card

/-- All commit SHAs consumed across all repositories and branches, in
    order, with multiplicity. -/
def allFetchedCommitShas (repos : List Repo) : List String :=
  repos.flatMap (fun r =>
    match repoBranches r with
    | none => []
    | some bs => bs.flatMap (branchCommits r))

/-- Folding set insertion over a list accumulates its elements. -/
lemma foldl_insert_eq_union (l : List String) :
    ∀ acc : Finset String,
      l.foldl (fun s sha => insert sha s) acc = acc ∪ l.toFinset := by
  induction l with
  | nil => intro acc; simp
  | cons a rest ih =>
    intro acc
    rw [List.foldl_cons, ih, List.toFinset_cons, Finset.insert_union,
      Finset.union_insert]

/-- Folding set insertion over the branches of one repository
    accumulates all its consumed SHAs. -/
lemma foldl_branches_eq_union (r : Repo) (bs : List String) :
    ∀ acc : Finset String,
      bs.foldl (fun acc2 bn => (branchCommits r bn).foldl
          (fun s sha => insert sha s) acc2) acc
        = acc ∪ (bs.flatMap (branchCommits r)).toFinset := by
  induction bs with
  | nil => intro acc; simp
  | cons bn rest ih =>
    intro acc
    rw [List.foldl_cons, ih, foldl_insert_eq_union, List.flatMap_cons,
      List.toFinset_append, Finset.union_assoc]

/-- C6: get_commits_since_jan_1 returns the number of distinct commit
    SHAs accumulated over all repositories and all branches; a commit
    reachable from several branches or repositories is counted exactly
    once. -/
theorem c6_distinct_commit_count (repos : List Repo) :
    getCommitsSinceJan1 repos = (allFetchedCommitShas repos).toFinset.card := by
  unfold getCommitsSinceJan1 allFetchedCommitShas
  have main : ∀ acc : Finset String,
      repos.foldl (fun acc r =>
        match repoBranches r with
        | none => acc
        | some bs => bs.foldl
            (fun acc2 bn => (branchCommits r bn).foldl
              (fun s sha => insert sha s) acc2) acc) acc
      = acc ∪ (repos.flatMap (fun r =>
          match repoBranches r with
          | none => []
          | some bs => bs.flatMap (branchCommits r))).toFinset := by
    induction repos with
    | nil => intro acc; simp
    | cons r rest ih =>
      intro acc
      rw [List.foldl_cons, List.flatMap_cons]
      cases hb : repoBranches r with
      | none =>
        simp only [hb]
        rw [ih]
        simp
      | some bs =>
        simp only [hb]
        rw [ih, foldl_branches_eq_union, List.toFinset_append,
          Finset.union_assoc]
  rw [main]
  simp

/-- One fetch of a repositories page: a request error (raising
    RequestException) or a response page. -/
inductive FetchOutcome (α : Type) where
  | failure : FetchOutcome α
  | success : Page α → FetchOutcome α

/-- The accumulation loop of get_user_repositories (lambda_handler.py
    lines 119-155 and, identically, generate_historical_data.py lines
    59-87): stop on an empty page; extend the accumulator; when a Link
    header is present stop unless it has a rel=next cursor; when no
    Link header is present stop when the page is shorter than per_page
    (100); a request error abandons everything accumulated and returns
    the empty list (lines 156-161). An exhausted response sequence is
    read as the server answering with an empty page. -/
def getUserRepositoriesAux {α : Type} : List (FetchOutcome α) → List α → List α
  | [], acc => acc
  | .failure :: _, _ => []
  | .success p :: rest, acc =>
    if p.items.isEmpty then acc
    else
      match p.link with
      | some hasNext =>
        if hasNext then getUserRepositoriesAux rest (acc ++ p.items)
        else acc ++ p.items
      | none =>
        if p.items.length < 100 then acc ++ p.items
        else getUserRepositoriesAux rest (acc ++ p.items)

/-- get_user_repositories applied to the sequence of responses the
    server would give to pages 1, 2, ... -/
def getUserRepositories {α : Type} (responses : List (FetchOutcome α)) : List α :=
  getUserRepositoriesAux responses []

/-- Transcription of the claim: the pages are concatenated in order up
    to the first stop condition — an empty page, a Link header without
    a rel=next cursor, or no Link header and fewer than 100 items — and
    a request error before a stop yields none (the empty result). -/
def claimedPagination {α : Type} : List (FetchOutcome α) → Option (List α)
  | [] => some []
  | .failure :: _ => none
  | .success p :: rest =>
    if p.items.isEmpty then some []
    else if (p.link = some false) ∨ (p.link = none ∧ p.items.length < 100)
    then some p.items
    else (claimedPagination rest).map (fun l => p.items ++ l)

/-- The accumulator form of the loop equals the claim transcription. -/
lemma getUserRepositoriesAux_eq {α : Type} :
    ∀ (resp : List (FetchOutcome α)) (acc : List α),
      getUserRepositoriesAux resp acc =
        match claimedPagination resp with
        | none => []
        | some l => acc ++ l := by
  intro resp
  induction resp with
  | nil => intro acc; simp [getUserRepositoriesAux, claimedPagination]
  | cons x rest ih =>
    intro acc
    cases x with
    | failure => simp [getUserRepositoriesAux, claimedPagination]
    | success p =>
      by_cases hempty : p.items.isEmpty
      · simp [getUserRepositoriesAux, claimedPagination, hempty]
      · cases hl : p.link with
        | some hasNext =>
          cases hasNext with
          | false =>
            simp [getUserRepositoriesAux, claimedPagination, hempty, hl]
          | true =>
            rcases hcr : claimedPagination rest with _ | l <;>
              simp [getUserRepositoriesAux, claimedPagination, hempty, hl,
                ih, hcr, List.append_assoc]
        | none =>
          by_cases hshort : p.items.length < 100
          · simp [getUserRepositoriesAux, claimedPagination, hempty, hl, hshort]
          · rcases hcr : claimedPagination rest with _ | l <;>
              simp [getUserRepositoriesAux, claimedPagination, hempty, hl,
                hshort, ih, hcr, List.append_assoc]

/-- C8: get_user_repositories returns the in-order concatenation of
    all pages fetched before the first stop condition — stopping
    exactly on an empty page, on a Link header without a rel=next
    cursor, or on no Link header with fewer than per_page (100) items —
    and returns the empty list when a request errors. -/
theorem c8_pagination_refinement {α : Type} (responses : List (FetchOutcome α)) :
    getUserRepositories responses = (claimedPagination responses).getD [] := by
  rw [getUserRepositories, getUserRepositoriesAux_eq]
  rcases h : claimedPagination responses with _ | l <;> simp [h]

/-- lambda_handler.py line 72. -/
def MAX_DISCORD_MESSAGE_LENGTH : Nat := 2000

/-- The content string posted by send_discord_alert (lambda_handler.py
    lines 82-88): the message, truncated to its first
    MAX_DISCORD_MESSAGE_LENGTH - 3 characters followed by "..." when it
    exceeds the maximum length. Messages are modelled as character
    lists. -/
def sendDiscordContent (message : List Char) : List Char :=
  if MAX_DISCORD_MESSAGE_LENGTH < message.length
  then message.take (MAX_DISCORD_MESSAGE_LENGTH - 3) ++ ['.', '.', '.']
  else message

/-- C9: the posted content is at most 2000 characters: a message of at
    most 2000 characters is posted unchanged, and a longer message is
    posted as its first 1997 characters followed by "..." (exactly 2000
    characters). -/
theorem c9_discord_truncation (message : List Char) :
    (sendDiscordContent message).length ≤ 2000
    ∧ (message.length ≤ 2000 → sendDiscordContent message = message)
    ∧ (2000 < message.length →
        sendDiscordContent message = message.take 1997 ++ ['.', '.', '.']
        ∧ (sendDiscordContent message).length = 2000) := by
  by_cases h : 2000 < message.length
  · have hlen : (message.take 1997).length = 1997 := by
      rw [List.length_take]
      omega
    refine ⟨?_, fun hle => absurd h (by omega), fun _ => ⟨?_, ?_⟩⟩
    · simp [sendDiscordContent, MAX_DISCORD_MESSAGE_LENGTH, h, hlen]
    · simp [sendDiscordContent, MAX_DISCORD_MESSAGE_LENGTH, h]
    · simp [sendDiscordContent, MAX_DISCORD_MESSAGE_LENGTH, h, hlen]
  · refine ⟨?_, fun _ => ?_, fun hgt => absurd hgt h⟩
    · simp [sendDiscordContent, MAX_DISCORD_MESSAGE_LENGTH, h]
      omega
    · simp [sendDiscordContent, MAX_DISCORD_MESSAGE_LENGTH, h]

/-- Witness for C9 on a 2500-character message: the posted content has
    exactly 2000 characters. -/
theorem c9_discord_truncation_witness :
    (sendDiscordContent (List.replicate 2500 'x')).length = 2000 :=
  ((c9_discord_truncation (List.replicate 2500 'x')).2.2
    (by rw [List.length_replicate]; norm_num)).2

/-- The top-level functions defined in src/lambda_function/src/utils.py
    (lines 11 and 690). -/
def utilsTopLevelFunctions : List String :=
  ["get_html_template", "render_html_template"]

/-- The names lambda_handler.py line 10 imports from utils. -/
def lambdaHandlerUtilsImports : List String :=
  ["get_html_template", "render_html_template", "calculate_weekly_activity"]

/-- Whether every name imported from utils by lambda_handler.py is
    defined by utils.py; a missing name raises ImportError when the
    module is loaded, before any invocation runs. -/
def lambdaHandlerModuleLoads : Bool :=
  lambdaHandlerUtilsImports.all (fun n => utilsTopLevelFunctions.contains n)

/-- The number of parameters render_html_template accepts (utils.py
    line 690: 4 required and 3 optional). -/
def renderHtmlTemplateParamCount : Nat := 7

/-- The number of positional arguments the handler passes to
    render_html_template (lambda_handler.py lines 596-608). -/
def handlerRenderCallArgCount : Nat := 11

/-- C7 (code bug): the handler cannot reach the render-and-upload-200
    path. Loading lambda_handler imports calculate_weekly_activity from
    utils, a name utils.py does not define, so the module fails with
    ImportError before any run; and even past that, the handler calls
    render_html_template with 11 positional arguments while the
    function accepts at most 7, raising TypeError, which the handler
    catches to return statusCode 500 without uploading HTML. -/
theorem c7_handler_render_code_bug :
    lambdaHandlerModuleLoads = false
    ∧ "calculate_weekly_activity" ∈ lambdaHandlerUtilsImports
    ∧ "calculate_weekly_activity" ∉ utilsTopLevelFunctions
    ∧ renderHtmlTemplateParamCount < handlerRenderCallArgCount := by decide

/-
  Model of get_historical_data (lambda_handler.py lines 322-358). The
  stored JSON bodies parse to arbitrary Python values.
-/

/-- A parsed JSON value as json.loads produces it. -/
inductive PyJson where
  | obj : List (String × PyJson) → PyJson
  | arr : List PyJson → PyJson
  | str : String → PyJson
  | num : Int → PyJson
  | null : PyJson

/-- Whether a parsed value is a dictionary containing a "data" key. -/
def hasDataKey : PyJson → Bool
  | .obj fields => fields.any (fun p => p.1 == "data")
  | _ => false

/-- The fresh dataset created on the error paths (lines 351, 354, 358). -/
def defaultDataset : PyJson := .obj [("data", .arr [])]

/-- get_historical_data over the two stored objects. An argument is
    none when its key is missing (NoSuchKey) and some none when the key
    exists but reading or parsing it raises. Returns the value the
    function returns together with the content of the main key
    afterwards (the backup-restore path writes the parsed backup back
    to the main key, lines 340-345; the model takes that write to
    succeed). A parse failure of the main object is caught by the
    generic handler at line 355 and yields the fresh dataset without
    consulting the backup. -/
def getHistoricalData (main backup : Option (Option PyJson)) :
    PyJson × Option (Option PyJson) :=
  match main with
  | some (some j) => (j, main)
  | some none => (defaultDataset, main)
  | none =>
    match backup with
    | some (some j) => (j, some (some j))
    | some none => (defaultDataset, none)
    | none => (defaultDataset, none)

/-- C10 counterexample: when the main object exists and parses to the
    JSON array [], get_historical_data returns that array unchanged,
    which is not a dictionary containing a "data" key. -/
theorem c10_data_key_counterexample :
    (getHistoricalData (some (some (PyJson.arr []))) none).1 = PyJson.arr []
    ∧ hasDataKey (getHistoricalData (some (some (PyJson.arr []))) none).1 = false
    ∧ hasDataKey defaultDataset = true :=
  ⟨rfl, rfl, rfl⟩

/-- C10 (amended): get_historical_data never raises; it returns the
    parsed main object as-is when the main key exists and parses
    (whatever its shape), the parsed backup object written back to the
    main key when the main key is missing, and the fresh dataset with
    an empty data list on every error path. -/
theorem c10_amended :
    ∀ (main backup : Option (Option PyJson)) (j : PyJson),
      (main = some (some j) → getHistoricalData main backup = (j, main))
      ∧ (main = some none →
          getHistoricalData main backup = (defaultDataset, main))
      ∧ (main = none → backup = some (some j) →
          getHistoricalData main backup = (j, some (some j)))
      ∧ (main = none → (backup = some none ∨ backup = none) →
          getHistoricalData main backup = (defaultDataset, none)) := by
  intro main backup j
  refine ⟨?_, ?_, ?_, ?_⟩
  · intro h; subst h; rfl
  · intro h; subst h; rfl
  · intro h1 h2; subst h1; subst h2; rfl
  · intro h1 h2
    subst h1
    rcases h2 with h2 | h2 <;> subst h2 <;> rfl

/-- Witness for the amended C10: a present main object is returned
    as-is, and a missing main object is restored from the backup. -/
theorem c10_amended_witness :
    getHistoricalData (some (some defaultDataset)) none
      = (defaultDataset, some (some defaultDataset))
    ∧ getHistoricalData none (some (some (PyJson.num 3)))
      = (PyJson.num 3, some (some (PyJson.num 3))) := by
  constructor
  · exact (c10_amended (some (some defaultDataset)) none defaultDataset).1 rfl
  · exact (c10_amended none (some (some (PyJson.num 3)))
      (PyJson.num 3)).2.2.1 rfl rfl
